import Mathlib

/-!
Verification development for the pa-f.net scraping and publishing pipeline.

The development shallowly embeds the content-extraction, sitemap-building,
link-graph-analysis and editor-API logic of the repository:

  * `src/palimpsest/parser.py`   (SiteParser: skip filter, title, links,
    content, image, date extraction; the same logic appears in near-duplicate
    form in `src/sitemap.py::parse`)
  * `src/palimpsest/analysis.py` (SiteAnalyzer.analyze_links and
    SiteAnalyzer.generate_page_list; duplicated in `src/sitemap.py::list`)
  * `src/web-editor/backend/main.py` (the POST /api/sitemap handler)

HTML parsing (BeautifulSoup) and HTML-to-markdown conversion (markdownify)
are external libraries: a document is modelled by the results of the CSS
selections the code performs on it, and the markdown conversion of an element
is modelled as data carried by the document model. Python string and path
operations (lstrip, split, os.path.normpath) are embedded faithfully,
including their character-set and whole-string semantics.
-/

namespace PAF

/-! ## Python string and path primitives

Strings are reduced to their character lists (`String.data`) and every
operation is structural recursion over them, so that any concrete instance
evaluates inside the kernel. -/

/-- Leftmost, non-overlapping split of a character list on a non-empty
separator, as Python `str.split` performs it. The fuel argument only bounds
the recursion depth; it is set to the length of the list, which the scan
never exceeds, so the zero-fuel branch is never taken on the lists fed to
it. -/
def csSplitOnFuel (sep : List Char) : Nat → List Char → List (List Char)
  | 0, s => [s]
  | _ + 1, [] => [[]]
  | fuel + 1, c :: rest =>
    if sep.isPrefixOf (c :: rest) then
      [] :: csSplitOnFuel sep fuel (rest.drop (sep.length - 1))
    else
      match csSplitOnFuel sep fuel rest with
      | [] => [[]]
      | grp :: grps => (c :: grp) :: grps

/-- Python `s.split(sep)` for a non-empty separator (Python raises on an
empty one, and no caller passes one). -/
def pySplit (s sep : String) : List String :=
  if sep.data.isEmpty then [s]
  else (csSplitOnFuel sep.data s.data.length s.data).map String.mk

/-- Join of character lists with a separator between consecutive parts. -/
def csIntercalate (sep : List Char) : List (List Char) → List Char
  | [] => []
  | [x] => x
  | x :: y :: xs => x ++ sep ++ csIntercalate sep (y :: xs)

/-- Python `sep.join(parts)`. -/
def pyJoin (sep : String) (parts : List String) : String :=
  String.mk (csIntercalate sep.data (parts.map String.data))

/-- Python `s.startswith(pre)`. -/
def pyStartsWith (s pre : String) : Bool :=
  pre.data.isPrefixOf s.data

/-- Python `s.endswith(suf)`. -/
def pyEndsWith (s suf : String) : Bool :=
  suf.data.isSuffixOf s.data

/-- Python `c in s` for a single character. -/
def pyHasChar (s : String) (c : Char) : Bool :=
  s.data.contains c

/-- Python `s[n:]`. -/
def pyDrop (s : String) (n : Nat) : String :=
  String.mk (s.data.drop n)

/-- Python `s.lstrip(cs)`: removes from the front every character that is a
member of the set `cs` (not the literal prefix `cs`). -/
def pyLstrip (s : String) (cs : List Char) : String :=
  String.mk (s.data.dropWhile (fun c => cs.contains c))

/-- Python `s.split(sep)[-1]` for a non-empty `sep`: the part of `s` after the
last occurrence of `sep`, or the whole of `s` when `sep` does not occur. -/
def pySplitLast (s sep : String) : String :=
  (pySplit s sep).getLastD s

/-- Python `sub in s`: substring containment. -/
def pyContains (s sub : String) : Bool :=
  (pySplit s sub).length != 1

/-- Python `s.split("/")[-1]`: the last path segment of `s`. -/
def pyLastSeg (s : String) : String :=
  (pySplit s "/").getLastD s

/-- Python `"/".join(s.split("/")[:-1])`: `s` with its last path segment
dropped, without a trailing separator. -/
def pyDropLastSeg (s : String) : String :=
  pyJoin "/" ((pySplit s "/").dropLast)

/-- Python `os.path.normpath` (POSIX rules): drop empty and `.` components,
collapse `x/..` pairs where possible for relative paths, keep a run of leading
`..` components in relative paths, absorb leading `..` after an initial `/`,
preserve one leading slash (two stay two, three or more become one), and
return `.` for an empty result. Transcribed from CPython posixpath.normpath. -/
def pyNormPath (path : String) : String :=
  if path == "" then "." else
  let initialSlashes : Nat :=
    if pyStartsWith path "/" then
      if pyStartsWith path "//" && !(pyStartsWith path "///") then 2 else 1
    else 0
  let newComps := (pySplit path "/").foldl (fun acc comp =>
    if comp == "" || comp == "." then acc
    else if comp != ".." || (initialSlashes == 0 && acc.isEmpty) ||
            (!acc.isEmpty && acc.getLastD "" == "..") then acc ++ [comp]
    else if acc.isEmpty then acc
    else acc.dropLast) ([] : List String)
  let joined := String.mk (List.replicate initialSlashes '/') ++
    pyJoin "/" newComps
  if joined == "" then "." else joined

/-! ## Document model

A parsed HTML document is modelled by the outcome of each CSS selection the
parser performs on it.  The markdown conversion `md(elem)` of an element is
modelled as text carried by the model. -/

/-- One element matching `.node .content`: its markdown conversion and the
`src` attributes of its `img` descendants, in document order. -/
structure ContentBlock where
  mdText : String
  imgSrcs : List String
deriving Repr, DecidableEq

/-- One element matching `.node`, for the multi-node branch: the markdown of
its `.title` and `.content` sub-elements when present. -/
structure NodeElem where
  titleMd : Option String
  contentMd : Option String
deriving Repr, DecidableEq

/-- A parsed document, by the results of the selections SiteParser performs.
`galleriesMd` carries the markdown of the `.galleries` element after the
`.count`/`.last` sub-elements were decomposed (the cleanup the code performs
before conversion). `anchorHrefs` lists, per `a` element in document order,
its `href` attribute (`none` when the attribute is missing). -/
structure Doc where
  titleText : Option String
  anchorHrefs : List (Option String)
  nodeContents : List ContentBlock
  nodes : List NodeElem
  galleriesMd : Option String
  imagesMd : Option String
  pagerMd : Option String
  submittedText : Option String
deriving Repr, DecidableEq

/-- One page record as built by SiteParser.parse_file: `date` is `none` where
the Python value is `None`, `image` is `none` where the Python value is
`False`. -/
structure Page where
  title : String
  md : String
  date : Option String
  image : Option String
  links : List String
deriving Repr, DecidableEq

/-! ## SiteParser (src/palimpsest/parser.py) -/

/-- parser.py:30-46 `SiteParser.should_skip_file` (identical conditions at
sitemap.py:25-38). -/
def should_skip_file (path : String) : Bool :=
  pyStartsWith path "pa-f.net/book/export" ||
  pyContains path "size=" ||
  pyStartsWith path "pa-f.net/tracker?" ||
  pyStartsWith path "pa-f.net/files/"

/-- parser.py:48-63 `SiteParser.extract_title`: `none` when the document has
no `title` element (IndexError branch); otherwise split the title text on
the literal separator, drop the last piece, re-join, defaulting to `pa-f`
when the result is empty. -/
def extract_title (doc : Doc) : Option String :=
  match doc.titleText with
  | none => none
  | some t =>
    let joined := pyJoin " |" ((pySplit t " |").dropLast)
    some (if joined == "" then "pa-f" else joined)

/-- parser.py:82-84: strip the same-site absolute URL forms by taking the part
after the last occurrence of each form, in this order. -/
def clean_href (href : String) : String :=
  pySplitLast (pySplitLast (pySplitLast href "https://pa-f.net")
    "http://pa-f.net") "http://www.pa-f.net"

/-- The loop body of parser.py:76-85: a missing, empty or mailto href
contributes nothing; any other href is cleaned and appended. -/
def linkStep (acc : List String) (oh : Option String) : List String :=
  match oh with
  | none => acc
  | some h =>
    if h == "" || pyStartsWith h "mailto:" then acc
    else acc ++ [clean_href h]

/-- What one anchor contributes to the link list: `none` for a missing, empty
or mailto href, the cleaned href otherwise. -/
def linkKeep (oh : Option String) : Option String :=
  match oh with
  | none => none
  | some h =>
    if h == "" || pyStartsWith h "mailto:" then none
    else some (clean_href h)

/-- parser.py:65-87 `SiteParser.extract_links`: keep each present, non-empty,
non-mailto href, cleaned; then `list(set(links))`. The Python set iteration
order is unspecified, so deduplication is modelled by `List.dedup`; every
property stated about the result is order-independent. -/
def extract_links (hrefs : List (Option String)) : List String :=
  (hrefs.foldl linkStep []).dedup

/-- parser.py:89-130 `SiteParser.extract_content` (same logic at
sitemap.py:58-105): returns the markdown body and the image value (`none`
models Python `False`). In the multi-node branch the image is never set; in
the single-block branch the image is set exactly when the block holds exactly
one `img`, to its `src` passed through Python `lstrip("./")` which removes
every leading character belonging to the set containing the dot and the
slash. -/
def extract_content (doc : Doc) : String × Option String :=
  let base : String × Option String :=
    if doc.nodeContents.length > 1 then
      (doc.nodes.foldl (fun acc node =>
        acc ++ node.titleMd.getD "" ++ node.contentMd.getD "") "", none)
    else
      match doc.nodeContents.head? with
      | some content =>
        (content.mdText,
         if content.imgSrcs.length == 1 then
           some (pyLstrip (content.imgSrcs.getD 0 "") ['.', '/'])
         else none)
      | none => ("", none)
  let withGal := base.1 ++
    (match doc.galleriesMd with | some g => "\n\n" ++ g | none => "")
  let withImgs := withGal ++
    (match doc.imagesMd with | some g => "\n\n" ++ g | none => "")
  let withPager := withImgs ++
    (match doc.pagerMd with | some g => "\n\n" ++ g | none => "")
  (withPager, base.2)

/-- True when the ten characters starting the list are a
digit-4, dash, digit-2, dash, digit-2 date shape. -/
def matchDateAt : List Char → Bool
  | a :: b :: c :: d :: s1 :: e :: f :: s2 :: g :: h :: _ =>
    a.isDigit && b.isDigit && c.isDigit && d.isDigit && s1 == '-' &&
    e.isDigit && f.isDigit && s2 == '-' && g.isDigit && h.isDigit
  | _ => false

/-- Leftmost match of the pattern `\d{4}-\d{2}-\d{2}`, as `re.search` finds
it. -/
def findDate : List Char → Option String
  | [] => none
  | c :: cs =>
    if matchDateAt (c :: cs) then some (String.mk ((c :: cs).take 10))
    else findDate cs

/-- parser.py:132-147 `SiteParser.extract_date`. -/
def extract_date (doc : Doc) : Option String :=
  match doc.submittedText with
  | none => none
  | some t => findDate t.data

/-- parser.py:149-162 `SiteParser.has_content`. -/
def has_content (doc : Doc) : Bool :=
  !doc.nodeContents.isEmpty || doc.galleriesMd.isSome || doc.imagesMd.isSome

/-- parser.py:164-206 `SiteParser.parse_file`, minus file IO: the skip filter
runs first (before the file is even opened), then title extraction, then the
content-presence check, then links, body+image, date. A decode failure is not
modelled (it yields `None` before any of the modelled logic runs). -/
def parse_file (path : String) (doc : Doc) : Option Page :=
  if should_skip_file path then none
  else
    match extract_title doc with
    | none => none
    | some title =>
      if !has_content doc then none
      else
        let links := extract_links doc.anchorHrefs
        let cm := extract_content doc
        let date := extract_date doc
        some { title := title, md := cm.1, date := date, image := cm.2,
               links := links }

/-! ## Persisted record shape (json.dump of the built dict)

parser.py:200-206 builds the per-page dict with the plain values `title`,
`content_md`, `date` (a string or `None`), `image` (a string or `False`),
`links`; `save_sitemap` passes it to `json.dump`, which renders `None` as
JSON null and `False` as JSON false.  sitemap.py:109 builds the same dict
without the `links` key. -/

/-- A JSON value, as far as the records need. -/
inductive JVal where
  | str : String → JVal
  | bool : Bool → JVal
  | null : JVal
  | arr : List JVal → JVal
  | obj : List (String × JVal) → JVal

/-- The JSON object `json.dump` writes for one record built by
parser.py:200-206: `date`/`image` are the dict values `None`/`False` rendered
as null/false when the extraction found nothing. -/
def record_json (p : Page) : List (String × JVal) :=
  [("title", .str p.title), ("md", .str p.md),
   ("date", match p.date with | some d => .str d | none => .null),
   ("image", match p.image with | some i => .str i | none => .bool false),
   ("links", .arr (p.links.map .str))]

/-- The JSON object `json.dump` writes for one record built by
sitemap.py:109, which has no `links` key at all (the variant with links is
commented out at sitemap.py:108). -/
def record_json_legacy (title mdText : String) (date : Option String)
    (image : Option String) : List (String × JVal) :=
  [("title", .str title), ("md", .str mdText),
   ("date", match date with | some d => .str d | none => .null),
   ("image", match image with | some i => .str i | none => .bool false)]

/-! ## SiteAnalyzer (src/palimpsest/analysis.py)

A loaded sitemap is modelled as an association list in dict iteration order;
`v.get("links", [])` is the `links` field of the `Page`. -/

/-- A sitemap in iteration order: page key to record. -/
abbrev Sitemap := List (String × Page)

/-- The keys of a sitemap, in order. -/
def smKeys (sm : Sitemap) : List String := sm.map Prod.fst

/-- Python `l in sitemap`: key membership. -/
def smMem (sm : Sitemap) (l : String) : Bool := sm.any (fun kv => kv.1 == l)

/-- analysis.py:47-55 (identical at sitemap.py:349-356): the value compared
against the sitemap keys for one raw link from referring key `k`: strip every
leading slash, and when the remainder starts with `../`, prepend the
referring key directory (the key minus its last segment, with a trailing
slash appended) when the last segment of the key holds a dot, the whole key
verbatim otherwise, and pass the concatenation through os.path.normpath. -/
def resolveTarget (k link : String) : String :=
  let l := pyLstrip link ['/']
  if pyStartsWith l "../" then
    let k2 := if pyHasChar (pyLastSeg k) '.'
              then pyDropLastSeg k ++ "/"
              else k
    pyNormPath (k2 ++ l)
  else l

/-- The per-link body of analysis.py:41-60 (identical at sitemap.py:343-364):
skip `http`-prefixed and query-bearing links, compute the resolved value, and
keep it only when it is a key of the sitemap. -/
def resolveLink (sm : Sitemap) (k link : String) : Option String :=
  if pyStartsWith link "http" then none
  else if pyHasChar link '?' then none
  else if smMem sm (resolveTarget k link) then some (resolveTarget k link)
  else none

/-- All resolved, in-sitemap link targets, one occurrence per resolving link,
in iteration order. -/
def resolvedTargets (sm : Sitemap) : List String :=
  (sm.map (fun kv => kv.2.links.filterMap (resolveLink sm kv.1))).flatten

/-- Python `d[key] = d.get(key, 0) + 1` on an insertion-ordered dict: a
present key keeps its position and its value grows by one, an absent key is
appended with value one.  A dict holds each key once, so updating the first
matching entry of the association list is the dict update. -/
def dictIncr : List (String × Nat) → String → List (String × Nat)
  | [], key => [(key, 1)]
  | p :: rest, key =>
    if p.1 == key then (p.1, p.2 + 1) :: rest else p :: dictIncr rest key

/-- analysis.py:31-62 `SiteAnalyzer.analyze_links` (identical at
sitemap.py:338-364): the incoming-count dict, in insertion order. -/
def analyze_links (sm : Sitemap) : List (String × Nat) :=
  (resolvedTargets sm).foldl dictIncr []

/-- Python `links_to.get(k, 0)`. -/
def lookupCnt (d : List (String × Nat)) (k : String) : Nat :=
  match d.find? (fun p => p.1 == k) with
  | some p => p.2
  | none => 0

/-- Occurrences of `k` in `l`. -/
def countOcc (l : List String) (k : String) : Nat :=
  (l.filter (fun x => x == k)).length

/-- Insert `x` into a descending-sorted list, before the first element whose
count does not exceed the count of `x`. -/
def insertDesc (cnt : α → Nat) (x : α) : List α → List α
  | [] => [x]
  | y :: ys => if cnt y ≤ cnt x then x :: y :: ys else y :: insertDesc cnt x ys

/-- Python `sorted(l, key=cnt, reverse=True)`: a stable descending sort
(ties keep their input order; `reverse=True` flips comparisons only). -/
def stableSortDesc (cnt : α → Nat) (l : List α) : List α :=
  l.foldr (insertDesc cnt) []

/-- analysis.py:64-94 `SiteAnalyzer.generate_page_list` (identical at
sitemap.py:336-380), reduced to the ordered sequence of entries the emitted
`ol` holds: pages sorted by incoming count descending with Python stable
sort, keys containing a question mark then dropped, each entry carrying the
key, the title and the shown count.  The surrounding HTML markup and the
per-entry href rewriting are presentation only and carry no further data. -/
def generate_page_list (sm : Sitemap) : List (String × String × Nat) :=
  let links_to := analyze_links sm
  let sortedPages := stableSortDesc (fun kv => lookupCnt links_to kv.1) sm
  (sortedPages.filter (fun kv => !pyHasChar kv.1 '?')).map
    (fun kv => (kv.1, kv.2.title, lookupCnt links_to kv.1))

/-! ## Editor API (src/web-editor/backend/main.py, POST /api/sitemap) -/

/-- The state the handler can touch: the persisted sitemap.json content.
The handler either never opens the file for writing (so the stored bytes are
untouched) or rewrites it wholesale with the dump of the incoming mapping;
the model therefore tracks the parsed stored value. -/
structure ApiState where
  sitemapFile : JVal

/-- The handler outcome: success, a 400 validation rejection, or the 500 the
generic handler turns an unexpected exception into. -/
inductive ApiResponse where
  | ok : ApiResponse
  | badRequest : String → ApiResponse
  | serverError : ApiResponse
deriving DecidableEq

/-- main.py:69-76: a page record passes validation when it is a dict holding
both a `title` and an `md` key. -/
def validRecord (v : JVal) : Bool :=
  match v with
  | .obj fields => fields.any (fun f => f.1 == "title") &&
                   fields.any (fun f => f.1 == "md")
  | _ => false

/-- The first record failing main.py:69-76 validation, with its path: the
loop raises HTTPException 400 at the first offender. -/
def firstInvalid (sm : List (String × JVal)) : Option String :=
  sm.findSome? (fun kv => if validRecord kv.2 then none else some kv.1)

/-- main.py:60-94 `update_sitemap`: validate every record before anything is
written; on the first invalid record answer 400 with the file untouched;
otherwise overwrite sitemap.json with the incoming mapping and run
StaticSiteGenerator.generate_site, which raises ValueError on an empty
sitemap (generator.py:309-310, surfaced as a 500 by the generic except
branch) after the file was already overwritten.  generate_site IO failures
beyond the emptiness guard are outside the model. -/
def update_sitemap (incoming : List (String × JVal)) (st : ApiState) :
    ApiResponse × ApiState :=
  match firstInvalid incoming with
  | some path => (.badRequest path, st)
  | none =>
    let st2 : ApiState := { sitemapFile := .obj incoming }
    if incoming.isEmpty then (.serverError, st2)
    else (.ok, st2)

/-! ## Definitions following the claims own words

Each definition below is written from a claim sentence, not from the code,
to be compared with the code-derived definitions above (refinement
comparison). -/

/-- Claim C1 wording: the base is the referring key with its last segment
dropped when that segment holds a dot, the whole key otherwise; base and raw
link are path-joined and the dot and dot-dot segments normalized. -/
def claim_resolve (k link : String) : String :=
  let base := if pyHasChar (pyLastSeg k) '.' then pyDropLastSeg k else k
  let joined := if base == "" then link
                else if pyEndsWith base "/" then base ++ link
                else base ++ "/" ++ link
  pyNormPath joined

/-- Claim C4 wording: the src with a leading `./` removed and nothing else
removed from the front. -/
def claim_strip_dot_slash (s : String) : String :=
  if pyStartsWith s "./" then pyDrop s 2 else s

/-- Claim C6 wording: a href beginning with one of the three absolute
same-site forms has that prefix, and only a prefix occurrence, stripped. -/
def claim_clean_href (h : String) : String :=
  if pyStartsWith h "https://pa-f.net" then
    pyDrop h "https://pa-f.net".data.length
  else if pyStartsWith h "http://pa-f.net" then
    pyDrop h "http://pa-f.net".data.length
  else if pyStartsWith h "http://www.pa-f.net" then
    pyDrop h "http://www.pa-f.net".data.length
  else h

/-- Claim C3 wording: the number of other pages (pages with a different key)
among whose resolved links the target key appears. -/
def claim_other_incoming (sm : Sitemap) (tgt : String) : Nat :=
  ((sm.filter (fun kv =>
    kv.1 != tgt &&
    (kv.2.links.filterMap (resolveLink sm kv.1)).contains tgt)).map
      Prod.fst).length

/-! ## Helper lemmas: the incoming-count dict -/

theorem countOcc_cons (a k : String) (l : List String) :
    countOcc (a :: l) k = countOcc l k + (if a = k then 1 else 0) := by
  by_cases h : a = k <;> simp [countOcc, List.filter_cons, h]

theorem lookupCnt_cons (p : String × Nat) (rest : List (String × Nat))
    (k : String) :
    lookupCnt (p :: rest) k =
      if p.1 = k then p.2 else lookupCnt rest k := by
  by_cases h : p.1 = k
  · rw [lookupCnt, List.find?_cons_of_pos _ (by simp [h]), if_pos h]
  · rw [lookupCnt, List.find?_cons_of_neg _ (by simp [h]), if_neg h]
    rfl

theorem lookupCnt_dictIncr (d : List (String × Nat)) (a k : String) :
    lookupCnt (dictIncr d a) k = lookupCnt d k + (if k = a then 1 else 0) := by
  induction d with
  | nil =>
    by_cases hk : k = a
    · rw [dictIncr, lookupCnt_cons, if_pos hk.symm]
      simp [lookupCnt, hk]
    · rw [dictIncr, lookupCnt_cons,
        if_neg (fun h => hk ((show a = k from h).symm))]
      simp [lookupCnt, hk]
  | cons p rest ih =>
    by_cases hpa : p.1 = a
    · rw [show dictIncr (p :: rest) a = (p.1, p.2 + 1) :: rest by
        rw [dictIncr]; rw [if_pos (by simp [hpa])]]
      by_cases hk : k = a
      · rw [lookupCnt_cons, lookupCnt_cons, if_pos (by rw [hpa, hk]),
          if_pos (by rw [hpa, hk]), if_pos hk]
      · rw [lookupCnt_cons, lookupCnt_cons,
          if_neg (by rw [hpa]; exact fun h => hk h.symm),
          if_neg (by rw [hpa]; exact fun h => hk h.symm), if_neg hk]
        omega
    · rw [show dictIncr (p :: rest) a = p :: dictIncr rest a by
        rw [dictIncr]; rw [if_neg (by simp [hpa])]]
      by_cases hpk : p.1 = k
      · have hka : ¬ k = a := fun h => hpa (by rw [hpk, h])
        rw [lookupCnt_cons, lookupCnt_cons, if_pos hpk, if_pos hpk,
          if_neg hka]
        omega
      · rw [lookupCnt_cons, lookupCnt_cons, if_neg hpk, if_neg hpk, ih]

theorem lookupCnt_foldl_dictIncr (l : List String) (d : List (String × Nat))
    (k : String) :
    lookupCnt (l.foldl dictIncr d) k = lookupCnt d k + countOcc l k := by
  induction l generalizing d with
  | nil => simp [countOcc]
  | cons a rest ih =>
    rw [List.foldl_cons, ih (dictIncr d a), lookupCnt_dictIncr, countOcc_cons]
    by_cases h : k = a
    · rw [if_pos h, if_pos h.symm]
      omega
    · rw [if_neg h, if_neg (fun hh => h hh.symm)]
      omega

theorem mem_dictIncr (d : List (String × Nat)) (a : String) (q : String × Nat)
    (hq : q ∈ dictIncr d a) :
    (∃ p ∈ d, q.1 = p.1 ∧ (q.2 = p.2 ∨ q.2 = p.2 + 1)) ∨ q = (a, 1) := by
  induction d with
  | nil =>
    rw [dictIncr] at hq
    exact Or.inr (by simpa using hq)
  | cons p rest ih =>
    rw [dictIncr] at hq
    by_cases hpa : (p.1 == a) = true
    · rw [if_pos hpa] at hq
      rcases List.mem_cons.mp hq with h | h
      · exact Or.inl ⟨p, by simp, by rw [h], Or.inr (by rw [h])⟩
      · exact Or.inl ⟨q, by simp [h], rfl, Or.inl rfl⟩
    · rw [if_neg hpa] at hq
      rcases List.mem_cons.mp hq with h | h
      · exact Or.inl ⟨p, by simp, by rw [h], Or.inl (by rw [h])⟩
      · rcases ih h with ⟨p2, hp2, h1, h2⟩ | h3
        · exact Or.inl ⟨p2, by simp [hp2], h1, h2⟩
        · exact Or.inr h3

theorem foldl_dictIncr_inv (S : List String) (l : List String)
    (hl : ∀ x ∈ l, x ∈ S) (d : List (String × Nat))
    (hd : ∀ q ∈ d, q.1 ∈ S ∧ 1 ≤ q.2) :
    ∀ q ∈ l.foldl dictIncr d, q.1 ∈ S ∧ 1 ≤ q.2 := by
  induction l generalizing d with
  | nil => simpa using hd
  | cons a rest ih =>
    intro q hq
    rw [List.foldl_cons] at hq
    have ha : a ∈ S := hl a (by simp)
    have hd' : ∀ r ∈ dictIncr d a, r.1 ∈ S ∧ 1 ≤ r.2 := by
      intro r hr
      rcases mem_dictIncr d a r hr with ⟨p, hp, h1, h2⟩ | h3
      · have hm := hd p hp
        refine ⟨by rw [h1]; exact hm.1, ?_⟩
        have := hm.2
        rcases h2 with h | h <;> omega
      · rw [h3]
        exact ⟨ha, le_refl 1⟩
    exact ih (fun x hx => hl x (by simp [hx])) (dictIncr d a) hd' q hq

theorem smMem_iff (sm : Sitemap) (x : String) :
    smMem sm x = true ↔ x ∈ smKeys sm := by
  constructor
  · intro h
    rcases List.any_eq_true.mp h with ⟨kv, hkv, heq⟩
    exact List.mem_map.mpr ⟨kv, hkv, by simpa using heq⟩
  · intro h
    rcases List.mem_map.mp h with ⟨kv, hkv, heq⟩
    exact List.any_eq_true.mpr ⟨kv, hkv, by simp [heq]⟩

theorem resolveLink_smMem (sm : Sitemap) (k link x : String)
    (h : resolveLink sm k link = some x) : smMem sm x = true := by
  unfold resolveLink at h
  split at h
  · exact absurd h (by simp)
  split at h
  · exact absurd h (by simp)
  split at h
  · rcases Option.some.inj h with rfl
    assumption
  · exact absurd h (by simp)

theorem resolvedTargets_mem_keys (sm : Sitemap) (x : String)
    (hx : x ∈ resolvedTargets sm) : x ∈ smKeys sm := by
  rcases List.mem_flatten.mp hx with ⟨group, hg, hxg⟩
  rcases List.mem_map.mp hg with ⟨kv, _, rfl⟩
  rcases List.mem_filterMap.mp hxg with ⟨link, _, hres⟩
  exact (smMem_iff sm x).mp (resolveLink_smMem sm kv.1 link x hres)


/-! ## Helper lemmas: the stable descending sort -/

theorem insertDesc_perm {α : Type} (cnt : α → Nat) (x : α) (s : List α) :
    (insertDesc cnt x s).Perm (x :: s) := by
  induction s with
  | nil => exact List.Perm.refl _
  | cons y ys ih =>
    rw [insertDesc]
    by_cases h : cnt y ≤ cnt x
    · rw [if_pos h]
    · rw [if_neg h]
      exact (ih.cons y).trans (List.Perm.swap x y ys)

theorem insertDesc_sorted {α : Type} (cnt : α → Nat) (x : α) (s : List α)
    (hs : s.Pairwise (fun a b => cnt b ≤ cnt a)) :
    (insertDesc cnt x s).Pairwise (fun a b => cnt b ≤ cnt a) := by
  induction s with
  | nil => simp [insertDesc]
  | cons y ys ih =>
    rcases List.pairwise_cons.mp hs with ⟨hy, hys⟩
    rw [insertDesc]
    by_cases h : cnt y ≤ cnt x
    · rw [if_pos h]
      refine List.pairwise_cons.mpr ⟨?_, hs⟩
      intro b hb
      rcases List.mem_cons.mp hb with rfl | hb2
      · exact h
      · exact le_trans (hy b hb2) h
    · rw [if_neg h]
      refine List.pairwise_cons.mpr ⟨?_, ih hys⟩
      intro b hb
      have hb2 : b ∈ x :: ys := (insertDesc_perm cnt x ys).mem_iff.mp hb
      rcases List.mem_cons.mp hb2 with rfl | hb3
      · exact le_of_lt (lt_of_not_le h)
      · exact hy b hb3

theorem insertDesc_filter_eq {α : Type} (cnt : α → Nat) (x : α) (s : List α) :
    (insertDesc cnt x s).filter (fun y => cnt y == cnt x)
      = x :: s.filter (fun y => cnt y == cnt x) := by
  induction s with
  | nil => simp [insertDesc]
  | cons y ys ih =>
    rw [insertDesc]
    by_cases h : cnt y ≤ cnt x
    · rw [if_pos h, List.filter_cons, if_pos (by simp)]
    · have hne : (cnt y == cnt x) = false := by
        simp only [beq_eq_false_iff_ne, ne_eq]
        omega
      rw [if_neg h, List.filter_cons, List.filter_cons, hne]
      simp only [Bool.false_eq_true, if_false]
      exact ih

theorem insertDesc_filter_ne {α : Type} (cnt : α → Nat) (x : α) (s : List α)
    (c : Nat) (hc : ¬ c = cnt x) :
    (insertDesc cnt x s).filter (fun y => cnt y == c)
      = s.filter (fun y => cnt y == c) := by
  induction s with
  | nil =>
    simp [insertDesc, List.filter_cons, show (cnt x == c) = false by
      simp only [beq_eq_false_iff_ne, ne_eq]; omega]
  | cons y ys ih =>
    rw [insertDesc]
    by_cases h : cnt y ≤ cnt x
    · rw [if_pos h, List.filter_cons,
        show (cnt x == c) = false by
          simp only [beq_eq_false_iff_ne, ne_eq]; omega]
      simp only [Bool.false_eq_true, if_false]
    · rw [if_neg h, List.filter_cons, List.filter_cons, ih]

theorem stableSortDesc_perm {α : Type} (cnt : α → Nat) (l : List α) :
    (stableSortDesc cnt l).Perm l := by
  induction l with
  | nil => exact List.Perm.refl _
  | cons x rest ih =>
    have h1 : stableSortDesc cnt (x :: rest)
        = insertDesc cnt x (stableSortDesc cnt rest) := rfl
    rw [h1]
    exact (insertDesc_perm cnt x (stableSortDesc cnt rest)).trans (ih.cons x)

theorem stableSortDesc_sorted {α : Type} (cnt : α → Nat) (l : List α) :
    (stableSortDesc cnt l).Pairwise (fun a b => cnt b ≤ cnt a) := by
  induction l with
  | nil => simp [stableSortDesc]
  | cons x rest ih => exact insertDesc_sorted cnt x _ ih

theorem stableSortDesc_filter {α : Type} (cnt : α → Nat) (l : List α)
    (c : Nat) :
    (stableSortDesc cnt l).filter (fun y => cnt y == c)
      = l.filter (fun y => cnt y == c) := by
  induction l with
  | nil => rfl
  | cons x rest ih =>
    have h1 : stableSortDesc cnt (x :: rest)
        = insertDesc cnt x (stableSortDesc cnt rest) := rfl
    rw [h1]
    by_cases hc : c = cnt x
    · subst hc
      rw [insertDesc_filter_eq, ih, List.filter_cons, if_pos (by simp)]
    · rw [insertDesc_filter_ne cnt x _ c hc, ih, List.filter_cons,
        show (cnt x == c) = false by
          simp only [beq_eq_false_iff_ne, ne_eq]; omega]
      simp only [Bool.false_eq_true, if_false]

/-! ## Helper lemmas: filter and map plumbing -/

theorem filter_map_comm {α β : Type} (f : α → β) (q : β → Bool)
    (l : List α) :
    (l.map f).filter q = (l.filter (fun a => q (f a))).map f := by
  induction l with
  | nil => rfl
  | cons a rest ih =>
    rw [List.map_cons, List.filter_cons, List.filter_cons]
    by_cases h : q (f a) = true
    · rw [if_pos h, if_pos h, List.map_cons, ih]
    · rw [if_neg h, if_neg h, ih]

theorem filter_filter_and {α : Type} (p q : α → Bool) (l : List α) :
    (l.filter p).filter q = l.filter (fun a => p a && q a) := by
  induction l with
  | nil => rfl
  | cons a rest ih =>
    rw [List.filter_cons, List.filter_cons]
    by_cases hp : p a = true
    · rw [if_pos hp, List.filter_cons]
      by_cases hq : q a = true
      · rw [if_pos hq, if_pos (by rw [hp, hq]; rfl), ih]
      · rw [if_neg hq, if_neg (by rw [hp]; simpa using hq), ih]
    · rw [if_neg hp, if_neg (by rw [show p a = false by simpa using hp]; simp),
        ih]

theorem linkStep_eq (acc : List String) (oh : Option String) :
    linkStep acc oh = acc ++ (linkKeep oh).toList := by
  cases oh with
  | none => simp [linkStep, linkKeep]
  | some h =>
    by_cases hb : (h == "" || pyStartsWith h "mailto:") = true
    · rw [linkStep, linkKeep, if_pos hb, if_pos hb]
      simp
    · rw [linkStep, linkKeep, if_neg hb, if_neg hb]
      simp

theorem foldl_append_of_step {α β : Type} (f : List β → α → List β)
    (g : α → Option β) (hf : ∀ acc x, f acc x = acc ++ (g x).toList)
    (l : List α) (acc : List β) :
    l.foldl f acc = acc ++ l.filterMap g := by
  induction l generalizing acc with
  | nil => simp
  | cons a rest ih =>
    rw [List.foldl_cons, hf, ih, List.filterMap_cons]
    cases hg : g a with
    | none => simp
    | some b => simp

theorem extract_links_eq (hrefs : List (Option String)) :
    extract_links hrefs = (hrefs.filterMap linkKeep).dedup := by
  rw [extract_links, foldl_append_of_step linkStep linkKeep linkStep_eq]
  rfl


theorem filter_fst_map (p : String → Bool) (l : List (String × Page)) :
    (l.filter (fun kv => p kv.1)).map (fun kv => kv.1)
      = (l.map (fun kv => kv.1)).filter p := by
  induction l with
  | nil => rfl
  | cons kv rest ih =>
    rw [List.map_cons, List.filter_cons, List.filter_cons]
    by_cases h : p kv.1 = true
    · rw [if_pos h, if_pos h, List.map_cons, ih]
    · rw [if_neg h, if_neg h, ih]

theorem filter_swap {α : Type} (p q : α → Bool) (l : List α) :
    (l.filter p).filter q = (l.filter q).filter p := by
  rw [filter_filter_and, filter_filter_and]
  exact List.filter_congr (fun a _ => Bool.and_comm (p a) (q a))


/-! ## Claim theorems -/

/-- C1 counterexample: the claimed resolution rule, read on the referring key
b.html (single segment, holding a dot), drops the last segment leaving an
empty base, so the raw link ../c.html stays ../c.html after normalization and
nothing in the sitemap can be credited; the code instead appends a slash to
the empty directory, normalizes /../c.html to the absolute /c.html, and the
analyzer credits the sitemap key /c.html. -/
theorem C1_counterexample :
    claim_resolve "b.html" "../c.html" = "../c.html" ∧
    resolveTarget "b.html" "../c.html" = "/c.html" ∧
    analyze_links [("b.html", ⟨"t", "", none, none, ["../c.html"]⟩),
                   ("/c.html", ⟨"t", "", none, none, []⟩)]
      = [("/c.html", 1)] ∧
    ("../c.html" : String) ≠ "/c.html" := by
  refine ⟨by decide, by decide, by decide, by decide⟩

/-- C1 amended: for a raw link that starts with ../ after slash stripping
(and survives the http and query filters, which act before the slash strip),
the analyzer resolves it by concatenating a base with the stripped link and
normalizing with Python os.path.normpath, where the base is the referring key
minus its last segment with a trailing slash appended when that segment holds
a dot (so a single-segment referring key yields the base /), and the whole
referring key verbatim otherwise; the two example resolutions of the claim
hold: a/b.html with ../c.html gives c.html, a/b/ with ../c.html gives
a/c.html. -/
theorem C1_parent_resolution :
    (∀ (k link : String),
       pyStartsWith (pyLstrip link ['/']) "../" = true →
       resolveTarget k link =
         pyNormPath ((if pyHasChar (pyLastSeg k) '.'
                      then pyDropLastSeg k ++ "/"
                      else k) ++ pyLstrip link ['/'])) ∧
    resolveTarget "a/b.html" "../c.html" = "c.html" ∧
    resolveTarget "a/b/" "../c.html" = "a/c.html" ∧
    analyze_links [("a/b.html", ⟨"t", "", none, none, ["../c.html"]⟩),
                   ("c.html", ⟨"t", "", none, none, []⟩)]
      = [("c.html", 1)] ∧
    analyze_links [("a/b/", ⟨"t", "", none, none, ["../c.html"]⟩),
                   ("a/c.html", ⟨"t", "", none, none, []⟩)]
      = [("a/c.html", 1)] := by
  refine ⟨?_, by decide, by decide, by decide, by decide⟩
  intro k link h3
  simp only [resolveTarget, h3, if_true]

/-- C2: every entry of the incoming-count mapping names a key of the same
sitemap and carries a count of at least one (a resolved value that is no key
is dropped without being credited), and the dead-link example sitemap with
one page x linking to an absent y yields the empty mapping. -/
theorem C2_incoming_invariant :
    (∀ (sm : Sitemap) (p : String × Nat), p ∈ analyze_links sm →
       p.1 ∈ smKeys sm ∧ 1 ≤ p.2) ∧
    analyze_links [("x", ⟨"t", "", none, none, ["y"]⟩)] = [] := by
  refine ⟨?_, by decide⟩
  intro sm p hp
  exact foldl_dictIncr_inv (smKeys sm) (resolvedTargets sm)
    (fun x hx => resolvedTargets_mem_keys sm x hx) [] (by simp) p hp

/-- C3 counterexample: in the one-page sitemap where x links to itself, the
analyzer reports incoming count one for x, while the number of other pages
whose resolved links target x is zero. -/
theorem C3_counterexample :
    lookupCnt (analyze_links [("x", ⟨"t", "", none, none, ["x"]⟩)]) "x" = 1 ∧
    claim_other_incoming [("x", ⟨"t", "", none, none, ["x"]⟩)] "x" = 0 ∧
    (1 : Nat) ≠ 0 := by
  refine ⟨by decide, by decide, by decide⟩

/-- C3 amended: the incoming count reported for a key equals the number of
resolving, in-sitemap link occurrences targeting it across all pages, the
linking page itself included (a self-link counts), as the self-link example
shows. -/
theorem C3_incoming_count :
    (∀ (sm : Sitemap) (k : String),
       lookupCnt (analyze_links sm) k = countOcc (resolvedTargets sm) k) ∧
    lookupCnt (analyze_links [("x", ⟨"t", "", none, none, ["x"]⟩)]) "x" = 1 := by
  refine ⟨?_, by decide⟩
  intro sm k
  have h : analyze_links sm = (resolvedTargets sm).foldl dictIncr [] := rfl
  rw [h, lookupCnt_foldl_dictIncr]
  simp [lookupCnt]


/-- C4 counterexample: a single content block whose one img src is /pic.png
gets image pic.png, because Python lstrip("./") removes every leading dot or
slash character; the claimed rule (remove a leading ./ and nothing else)
leaves /pic.png unchanged. -/
theorem C4_counterexample :
    (extract_content ⟨none, [], [⟨"b", ["/pic.png"]⟩], [], none, none, none,
      none⟩).2 = some "pic.png" ∧
    claim_strip_dot_slash "/pic.png" = "/pic.png" ∧
    ("pic.png" : String) ≠ "/pic.png" := by
  refine ⟨by decide, by decide, by decide⟩

/-- C4 amended: with exactly one primary content block, the image field is
set exactly when the block holds exactly one img element, to that src with
every leading dot and slash character removed (Python lstrip("./") treats
its argument as a character set); with zero or several imgs the image stays
absent. -/
theorem C4_single_image (doc : Doc) (b : ContentBlock)
    (hb : doc.nodeContents = [b]) :
    (b.imgSrcs.length = 1 →
       (extract_content doc).2
         = some (pyLstrip (b.imgSrcs.getD 0 "") ['.', '/'])) ∧
    (b.imgSrcs.length ≠ 1 → (extract_content doc).2 = none) := by
  constructor
  · intro h
    simp [extract_content, hb, h]
  · intro h
    simp [extract_content, hb, h]

/-- C4 witness: a block with the one img src ./img.png yields the image
img.png. -/
theorem C4_witness :
    (extract_content ⟨none, [], [⟨"b", ["./img.png"]⟩], [], none, none, none,
      none⟩).2 = some "img.png" := by
  have h := (C4_single_image
    ⟨none, [], [⟨"b", ["./img.png"]⟩], [], none, none, none, none⟩
    ⟨"b", ["./img.png"]⟩ rfl).1 rfl
  rw [h]
  decide

/-- C5 counterexample: the four example paths of the claim, taken as given,
are mostly not skipped: the skip rules anchor three of the four classes at
the scrape root pa-f.net/, so a/book/export/x (with or without the root
prepended), tracker?x=1 and files/y.png all pass the filter, and
a/book/export/x with ordinary content yields a page record. -/
theorem C5_counterexample :
    should_skip_file "a/book/export/x" = false ∧
    should_skip_file "pa-f.net/a/book/export/x" = false ∧
    should_skip_file "tracker?x=1" = false ∧
    should_skip_file "files/y.png" = false ∧
    parse_file "a/book/export/x"
        ⟨some "T | pa-f", [], [⟨"body", []⟩], [], none, none, none, none⟩
      = some ⟨"T", "body", none, none, []⟩ := by
  refine ⟨by decide, by decide, by decide, by decide, by decide⟩

/-- C5 amended: a path the filter matches is dropped before any content is
read, so it contributes no record regardless of the document; the four
exclusion classes are root-anchored (except the size= test, which matches
anywhere): pa-f.net/book/export/x, b?size=100, pa-f.net/tracker?x=1 and
pa-f.net/files/y.png are all skipped. -/
theorem C5_skip_filter :
    (∀ (path : String) (doc : Doc), should_skip_file path = true →
       parse_file path doc = none) ∧
    should_skip_file "pa-f.net/book/export/x" = true ∧
    should_skip_file "b?size=100" = true ∧
    should_skip_file "pa-f.net/tracker?x=1" = true ∧
    should_skip_file "pa-f.net/files/y.png" = true := by
  refine ⟨?_, by decide, by decide, by decide, by decide⟩
  intro path doc h
  simp [parse_file, h]

/-- C6 counterexample: an href holding an absolute same-site URL away from
its front is still cut at the last occurrence of that URL, because the code
splits on the three forms anywhere in the string; the claimed prefix-only
stripping leaves the href unchanged, yet the extracted collection holds /y
and not the original href. -/
theorem C6_counterexample :
    extract_links [some "/r?u=https://pa-f.net/y"] = ["/y"] ∧
    claim_clean_href "/r?u=https://pa-f.net/y" = "/r?u=https://pa-f.net/y" ∧
    ¬ ("/r?u=https://pa-f.net/y" ∈
        extract_links [some "/r?u=https://pa-f.net/y"]) := by
  refine ⟨by decide, by decide, by decide⟩

/-- C6 amended: the extracted link collection holds no duplicate and holds
exactly the cleaned values of the present, non-empty, non-mailto hrefs,
where cleaning keeps the part after the last occurrence of each of the three
absolute same-site forms, applied in order, anywhere in the string (not only
as a prefix). -/
theorem C6_links :
    (∀ hrefs : List (Option String), (extract_links hrefs).Nodup) ∧
    (∀ (hrefs : List (Option String)) (s : String),
       s ∈ extract_links hrefs ↔
       ∃ h, (some h) ∈ hrefs ∧ ¬ h = "" ∧ pyStartsWith h "mailto:" = false ∧
         clean_href h = s) := by
  constructor
  · intro hrefs
    rw [extract_links_eq]
    exact List.nodup_dedup _
  · intro hrefs s
    rw [extract_links_eq, List.mem_dedup, List.mem_filterMap]
    constructor
    · rintro ⟨oh, hmem, hsome⟩
      cases oh with
      | none => simp [linkKeep] at hsome
      | some h =>
        rw [show linkKeep (some h)
            = if (h == "" || pyStartsWith h "mailto:") = true then none
              else some (clean_href h) from rfl] at hsome
        by_cases hbad : (h == "" || pyStartsWith h "mailto:") = true
        · rw [if_pos hbad] at hsome
          cases hsome
        · rw [if_neg hbad] at hsome
          rcases Option.some.inj hsome with rfl
          simp only [Bool.or_eq_true, not_or, beq_iff_eq,
            Bool.not_eq_true] at hbad
          exact ⟨h, hmem, hbad.1, hbad.2, rfl⟩
    · rintro ⟨h, hmem, h1, h2, rfl⟩
      refine ⟨some h, hmem, ?_⟩
      have hbad : (h == "" || pyStartsWith h "mailto:") = false := by
        rw [Bool.or_eq_false_iff]
        exact ⟨by simpa using h1, h2⟩
      rw [show linkKeep (some h)
          = if (h == "" || pyStartsWith h "mailto:") = true then none
            else some (clean_href h) from rfl, if_neg (by simp [hbad])]

/-- C8 counterexample: a page with content but no submitted date and no
image produces a record whose persisted JSON object carries the date key
with value null and the image key with value false (both present, not
absent), and the sitemap.py writer emits records with no links key at
all. -/
theorem C8_counterexample :
    parse_file "pa-f.net/p.html"
        ⟨some "T | pa-f", [], [⟨"body", []⟩], [], none, none, none, none⟩
      = some ⟨"T", "body", none, none, []⟩ ∧
    List.lookup "date" (record_json ⟨"T", "body", none, none, []⟩)
      = some JVal.null ∧
    List.lookup "image" (record_json ⟨"T", "body", none, none, []⟩)
      = some (JVal.bool false) ∧
    (record_json_legacy "T" "body" none none).map Prod.fst
      = ["title", "md", "date", "image"] := by
  refine ⟨by decide, rfl, rfl, rfl⟩

/-- C8 amended: every record written by the parser.py pipeline carries all
five keys title, md, date, image, links in this order; title and md are
strings, links an array of strings, date is null (not absent) when no date
was found and a string otherwise, image is false (not absent) when no single
image was found and a string otherwise; the sitemap.py writer emits the same
first four keys and no links key. -/
theorem C8_record_fields (p : Page) :
    (record_json p).map Prod.fst = ["title", "md", "date", "image", "links"] ∧
    List.lookup "title" (record_json p) = some (JVal.str p.title) ∧
    List.lookup "md" (record_json p) = some (JVal.str p.md) ∧
    List.lookup "links" (record_json p)
      = some (JVal.arr (p.links.map JVal.str)) ∧
    List.lookup "date" (record_json p)
      = some (match p.date with | some d => JVal.str d | none => JVal.null) ∧
    List.lookup "image" (record_json p)
      = some (match p.image with
              | some i => JVal.str i
              | none => JVal.bool false) ∧
    (record_json_legacy p.title p.md p.date p.image).map Prod.fst
      = ["title", "md", "date", "image"] :=
  ⟨rfl, rfl, rfl, rfl, rfl, rfl, rfl⟩

/-- C9: a replacement holding any record that is not an object with both a
title and an md key is answered with a 400 rejection computed before the
file write, so the stored sitemap is exactly what it was and nothing is
partially applied. -/
theorem C9_atomic_rejection (incoming : List (String × JVal)) (st : ApiState)
    (kv : String × JVal) (hmem : kv ∈ incoming)
    (hbad : validRecord kv.2 = false) :
    ∃ path, update_sitemap incoming st
      = (ApiResponse.badRequest path, st) := by
  have hne : firstInvalid incoming ≠ none := by
    intro hnone
    have hall := List.findSome?_eq_none_iff.mp hnone kv hmem
    rw [hbad] at hall
    simp at hall
  obtain ⟨pth, hpth⟩ := Option.ne_none_iff_exists'.mp hne
  refine ⟨pth, ?_⟩
  simp [update_sitemap, hpth]

/-- C9 witness: a one-record replacement whose record is the bare string bad
is rejected and the stored value stays OLD. -/
theorem C9_witness :
    ∃ path, update_sitemap [("q", JVal.str "bad")] ⟨JVal.str "OLD"⟩
      = (ApiResponse.badRequest path, ⟨JVal.str "OLD"⟩) :=
  C9_atomic_rejection [("q", JVal.str "bad")] ⟨JVal.str "OLD"⟩
    ("q", JVal.str "bad") (by simp) rfl

/-- C10 counterexample: the empty replacement passes validation and
overwrites the stored file with the empty mapping, but regeneration does not
proceed: generate_site raises on an empty sitemap and the handler answers
500, not success. -/
theorem C10_counterexample :
    update_sitemap [] ⟨JVal.str "OLD"⟩
      = (ApiResponse.serverError, ⟨JVal.obj []⟩) ∧
    ApiResponse.serverError ≠ ApiResponse.ok := by
  refine ⟨rfl, by decide⟩

/-- C10 amended: the empty mapping passes the per-record validation
vacuously and the previously stored sitemap is overwritten with the empty
mapping; regeneration then fails (generate_site raises ValueError on an
empty sitemap, surfaced as a 500 response), but only after the file was
already erased. -/
theorem C10_empty_replacement (st : ApiState) :
    firstInvalid [] = none ∧
    update_sitemap [] st = (ApiResponse.serverError, ⟨JVal.obj []⟩) :=
  ⟨rfl, rfl⟩


/-- C7: the ranked page list holds exactly the sitemap keys without a
question mark (as a permutation), is ordered by incoming count descending,
and is stable: for every count value, the entries showing that count appear
exactly in sitemap iteration order. -/
theorem C7_ranked_list (sm : Sitemap) :
    ((generate_page_list sm).map (fun e => e.1)).Perm
        ((smKeys sm).filter (fun k => !pyHasChar k '?')) ∧
    (generate_page_list sm).Pairwise (fun a b => b.2.2 ≤ a.2.2) ∧
    (∀ c : Nat,
      (generate_page_list sm).filter (fun e => e.2.2 == c)
        = (sm.filter (fun kv => !pyHasChar kv.1 '?' &&
             (lookupCnt (analyze_links sm) kv.1 == c))).map
            (fun kv => (kv.1, kv.2.title, c))) := by
  have hgen : generate_page_list sm
      = ((stableSortDesc (fun kv => lookupCnt (analyze_links sm) kv.1)
            sm).filter (fun kv => !pyHasChar kv.1 '?')).map
          (fun kv => (kv.1, kv.2.title,
            lookupCnt (analyze_links sm) kv.1)) := rfl
  refine ⟨?_, ?_, ?_⟩
  · rw [hgen, List.map_map]
    rw [show ((fun e : String × String × Nat => e.1) ∘
        (fun kv : String × Page =>
          (kv.1, kv.2.title, lookupCnt (analyze_links sm) kv.1)))
        = (fun kv : String × Page => kv.1) from rfl]
    rw [filter_fst_map (fun k => !pyHasChar k '?')]
    exact List.Perm.filter _ (List.Perm.map _ (stableSortDesc_perm _ sm))
  · rw [hgen, List.pairwise_map]
    exact List.Pairwise.sublist (List.filter_sublist _)
      (stableSortDesc_sorted (fun kv => lookupCnt (analyze_links sm) kv.1) sm)
  · intro c
    rw [hgen, filter_map_comm]
    show (((stableSortDesc (fun kv => lookupCnt (analyze_links sm) kv.1)
          sm).filter (fun kv => !pyHasChar kv.1 '?')).filter
          (fun a => lookupCnt (analyze_links sm) a.1 == c)).map
          (fun kv => (kv.1, kv.2.title,
            lookupCnt (analyze_links sm) kv.1))
      = (sm.filter (fun kv => !pyHasChar kv.1 '?' &&
          (lookupCnt (analyze_links sm) kv.1 == c))).map
          (fun kv => (kv.1, kv.2.title, c))
    rw [filter_swap,
      stableSortDesc_filter (fun kv => lookupCnt (analyze_links sm) kv.1)
        sm c,
      filter_swap, filter_filter_and]
    refine List.map_congr_left ?_
    intro kv hkv
    have h2 := (List.mem_filter.mp hkv).2
    have h3 : lookupCnt (analyze_links sm) kv.1 = c := by
      rw [Bool.and_eq_true] at h2
      simpa using h2.2
    rw [h3]

end PAF
